import Mathlib

/-!
Shallow embedding of the two scripts of this repository:

* `.github/scripts/validate_notebook_format.py` — the fragment-join
  validator (`validate_notebook_source_format`), which inspects the
  `source` value of each code cell of a notebook and accumulates
  diagnostics about missing inter-fragment newlines (Rule A) and broken
  shell line continuations (Rule B).
* `.github/scripts/preprocess_notebook.py` — the rewriter
  (`preprocess_notebook`), which replaces `X = input(...)` and
  `os.environ["K"] = "literal"` statements by `None` assignments and
  inserts `import os` when needed.

Python strings are modelled as Lean `String` (a list of characters);
the Python string methods used by the scripts (`strip`, `rstrip`,
`lstrip`, `endswith`, `startswith`, `in`, `lower`, `split`,
`splitlines`) are re-implemented below on the character list.  The
`\w` and `\s` regex classes are modelled by their ASCII meaning, which
is exact for every character the scripts and the notebooks of the
repository use.  A diagnostic (one entry of the `errors` list of the
Python code, which is a formatted message string) is modelled by the
data that the message interpolates: the cell index, which of the four
message templates was used, and the element / line index.
-/

/-- Python `str.isspace` class used by `strip`, `rstrip`, `lstrip` and
the regex class `\s` (ASCII part). -/
def isPySpace (c : Char) : Bool :=
  c = ' ' || c = '\t' || c = '\n' || c = '\r' || c = '\x0b' || c = '\x0c'

/-- Python `str.lstrip()`. -/
def pyLstrip (s : String) : String :=
  ⟨s.data.dropWhile isPySpace⟩

/-- Python `str.rstrip()`. -/
def pyRstrip (s : String) : String :=
  ⟨(s.data.reverse.dropWhile isPySpace).reverse⟩

/-- Python `str.strip()`. -/
def pyStrip (s : String) : String :=
  pyLstrip (pyRstrip s)

/-- Does the pattern list occur at the head of the second list. -/
def startsWithL : List Char → List Char → Bool
  | [], _ => true
  | _ :: _, [] => false
  | p :: ps, c :: cs => p = c && startsWithL ps cs

/-- Python `s.startswith(pat)`. -/
def pyStartsWith (s pat : String) : Bool :=
  startsWithL pat.data s.data

/-- Python `s.endswith(pat)`. -/
def pyEndsWith (s pat : String) : Bool :=
  startsWithL pat.data.reverse s.data.reverse

/-- Does the pattern list occur anywhere inside the second list. -/
def hasSubL (pat : List Char) : List Char → Bool
  | [] => startsWithL pat []
  | c :: cs => startsWithL pat (c :: cs) || hasSubL pat cs

/-- Python `pat in s` (substring containment). -/
def pyContains (s pat : String) : Bool :=
  hasSubL pat.data s.data

/-- Python `str.lower()` (ASCII). -/
def pyLower (s : String) : String :=
  ⟨s.data.map Char.toLower⟩

/-- Python `str.split` on a newline character, on character lists.
`split` keeps a leading/trailing empty piece, so the empty string
yields one empty piece. -/
def splitNlChars : List Char → List (List Char)
  | [] => [[]]
  | c :: cs =>
    if c = '\n' then [] :: splitNlChars cs
    else
      match splitNlChars cs with
      | [] => [[c]]
      | l :: ls => (c :: l) :: ls

/-- Python `source.split(chr(10))`. -/
def pySplitNl (s : String) : List String :=
  (splitNlChars s.data).map fun l => (⟨l⟩ : String)

/-- One element of a code cell `source` array.  The validator guards
every rule with `isinstance(elem, str)`, so a non-string JSON element
is kept abstract. -/
inductive Frag
  | str (s : String)
  | nonstr
deriving DecidableEq, Repr

/-- Which of the four error-message templates of
`validate_notebook_source_format` produced a diagnostic. -/
inductive Rule
  | ruleA
  | ruleBBlank
  | ruleBCmd
  | ruleBLine
deriving DecidableEq, Repr

/-- One entry of the `errors` list: the cell index, the message
template, and the element index (for `Rule.ruleBLine` the line index
`i`; the message prints `i + 1`). -/
structure Diag where
  cell : Nat
  rule : Rule
  idx : Nat
deriving DecidableEq, Repr

/-- Table `problematic_patterns` of the validator (the closing brace
is written with an escape). -/
def problematicPatterns : List (String × String) :=
  [("import os", "exit_code"), ("import os", "exit_code"),
   ("\x7d", "check_"), ("\x7d", "echo"), ("\x7d", "for"), ("\x7d", "done"),
   ("done", "echo"), ("done", "for"), ("done", "#")]

/-- Loop over `problematic_patterns`: lines 83-88 of the validator. -/
def hasProblem (e ne : String) : Bool :=
  problematicPatterns.any fun p =>
    pyContains (pyRstrip e) p.1 && pyContains (pyLstrip ne) p.2 &&
    pyEndsWith (pyRstrip e) p.1 && pyStartsWith (pyLstrip ne) p.2

/-- Rule A body for one adjacent pair (lines 58-94 of the validator):
a candidate defect when the element does not end with a newline and
the next element is non-blank, confirmed by the pattern table or by
the catch-all (both elements non-blank after stripping). -/
def ruleACheck (ci i : Nat) (elem next : Frag) : Option Diag :=
  match elem with
  | Frag.nonstr => none
  | Frag.str e =>
    match next with
    | Frag.nonstr => none
    | Frag.str ne =>
      if pyStrip ne ≠ "" then
        if !(pyEndsWith e "\n") then
          if hasProblem e ne || (pyStrip e ≠ "" && pyStrip ne ≠ "") then
            some ⟨ci, Rule.ruleA, i⟩
          else none
        else none
      else none

/-- Keyword tuple of line 126 of the validator. -/
def shellStartKeywords : List String :=
  ["echo", "if", "for", "while", "done", "fi", "then", "else"]

/-- Rule B body for one adjacent pair (lines 100-131 of the
validator): a right-stripped element ending in a backslash followed by
a blank element, or followed by an unindented element that starts with
a shell keyword. -/
def ruleBCheck (ci i : Nat) (elem next : Frag) : Option Diag :=
  match elem, next with
  | Frag.str e, Frag.str ne =>
    if pyEndsWith (pyRstrip e) "\\" || pyEndsWith (pyRstrip e) " && \\" then
      if pyStrip ne = "" then some ⟨ci, Rule.ruleBBlank, i⟩
      else if !(pyStartsWith ne " ") && !(pyStartsWith ne "\t") &&
          pyStrip ne ≠ "" then
        if shellStartKeywords.any (fun k => pyStartsWith (pyStrip ne) k) then
          some ⟨ci, Rule.ruleBCmd, i⟩
        else none
      else none
    else none
  | _, _ => none

/-- The pair fed to Rule A at index `i` of the fragment list. -/
def ruleAAt (ci : Nat) (l : List Frag) (i : Nat) : Option Diag :=
  match l[i]?, l[i + 1]? with
  | some e, some ne => ruleACheck ci i e ne
  | _, _ => none

/-- First per-cell loop of the validator: Rule A over every adjacent
pair. -/
def ruleADiags (ci : Nat) (l : List Frag) : List Diag :=
  (List.range (l.length - 1)).filterMap (ruleAAt ci l)

/-- The pair fed to Rule B at index `i` of the fragment list. -/
def ruleBAt (ci : Nat) (l : List Frag) (i : Nat) : Option Diag :=
  match l[i]?, l[i + 1]? with
  | some e, some ne => ruleBCheck ci i e ne
  | _, _ => none

/-- Second per-cell loop of the validator: Rule B over every adjacent
pair. -/
def ruleBDiags (ci : Nat) (l : List Frag) : List Diag :=
  (List.range (l.length - 1)).filterMap (ruleBAt ci l)

/-- Single-joined-string branch of the validator (lines 133-148): only
the backslash-then-blank-line check, per physical line. -/
def strLineCheck (ci i : Nat) (line nline : String) : Option Diag :=
  if pyEndsWith (pyRstrip line) "\\" || pyEndsWith (pyRstrip line) " && \\" then
    if pyStrip nline = "" then some ⟨ci, Rule.ruleBLine, i⟩ else none
  else none

/-- The pair of physical lines fed to the joined-string check at line
index `i`. -/
def strLineAt (ci : Nat) (lines : List String) (i : Nat) : Option Diag :=
  match lines[i]?, lines[i + 1]? with
  | some line, some nline => strLineCheck ci i line nline
  | _, _ => none

/-- Diagnostics of a code cell whose `source` is a single string. -/
def strDiags (ci : Nat) (s : String) : List Diag :=
  let lines := pySplitNl s
  (List.range (lines.length - 1)).filterMap (strLineAt ci lines)

/-- The `source` value of a cell: an array of fragments, a single
joined string, or absent (`cell.get` default, also covering `None`). -/
inductive Source
  | fragments (l : List Frag)
  | joined (s : String)
  | absent
deriving DecidableEq, Repr

/-- One notebook cell as the validator sees it. -/
structure Cell where
  cellType : String
  source : Source
deriving DecidableEq, Repr

/-- Python truthiness of the `source` value (line 51 of the
validator). -/
def sourceTruthy : Source → Bool
  | Source.fragments l => !l.isEmpty
  | Source.joined s => s ≠ ""
  | Source.absent => false

/-- Per-cell work of the validator loop: skip non-code cells and
falsy sources, then run the Rule A loop followed by the Rule B loop on
a fragment array, or the per-line check on a joined string. -/
def validateCell (ci : Nat) (c : Cell) : List Diag :=
  if c.cellType ≠ "code" then []
  else if !(sourceTruthy c.source) then []
  else
    match c.source with
    | Source.fragments l => ruleADiags ci l ++ ruleBDiags ci l
    | Source.joined s => strDiags ci s
    | Source.absent => []

/-- The enumerated cell loop of the validator. -/
def validateCells : Nat → List Cell → List Diag
  | _, [] => []
  | ci, c :: cs => validateCell ci c ++ validateCells (ci + 1) cs

/-- A parsed notebook as the validator sees it: the `cells` field may
be absent (`nb.get` default). -/
structure Notebook where
  cells : Option (List Cell)

/-- Lines 42-150 of `validate_notebook_format.py`: returns the pair
`(is_valid, errors)`. -/
def validate_notebook_source_format (nb : Notebook) : Bool × List Diag :=
  match nb.cells with
  | none => (true, [])
  | some cs =>
    if cs.isEmpty then (true, [])
    else
      let errs := validateCells 0 cs
      (errs.isEmpty, errs)

/-- Regex class `\w` (ASCII part), used by both substitution
patterns. -/
def isWordChar (c : Char) : Bool :=
  c.isAlpha || c.isDigit || c = '_'

/-- Attempt to match pattern 1 of the rewriter,
`(\w+)\s*=\s*input\([^)]+\)`, at the head of the character list.
Returns the captured identifier and the remainder after the match.
Backtracking never helps this pattern: `=` is neither a word character
nor whitespace, so the maximal `\w+` and `\s*` runs are the only
candidates, and the greedy `[^)]+\)` stops at the first closing
parenthesis. -/
def tryMatchInput (l : List Char) : Option (List Char × List Char) :=
  let w := l.takeWhile isWordChar
  let r1 := l.dropWhile isWordChar
  if w.isEmpty then none
  else
    match r1.dropWhile isPySpace with
    | '=' :: r2 =>
      let r3 := r2.dropWhile isPySpace
      if startsWithL ("input(".data) r3 then
        let r4 := r3.drop 6
        let body := r4.takeWhile fun c => c ≠ ')'
        let r5 := r4.dropWhile fun c => c ≠ ')'
        if body.isEmpty then none
        else
          match r5 with
          | ')' :: r6 => some (w, r6)
          | _ => none
      else none
    | _ => none

/-- Python `re.search(pattern1, text)` as a Boolean. -/
def hasMatchInput : List Char → Bool
  | [] => false
  | c :: cs => (tryMatchInput (c :: cs)).isSome || hasMatchInput cs

/-- Python `re.sub(pattern1, group1 followed by an equals sign and
None, text)`: left-to-right scan replacing every non-overlapping
leftmost match.  One unit of fuel is spent per consumed character, so
fuel equal to the length of the text suffices. -/
def subInputAux : Nat → List Char → List Char
  | 0, l => l
  | _ + 1, [] => []
  | fuel + 1, c :: cs =>
    match tryMatchInput (c :: cs) with
    | some (w, rest) => w ++ (" = None".data) ++ subInputAux fuel rest
    | none => c :: subInputAux fuel cs

/-- Attempt to match pattern 2 of the rewriter,
`os\.environ\["(\w+)"\]\s*=\s*"[^"]*"`, at the head of the character
list. -/
def tryMatchEnviron (l : List Char) : Option (List Char × List Char) :=
  if startsWithL ("os.environ[\"".data) l then
    let r1 := l.drop 12
    let w := r1.takeWhile isWordChar
    let r2 := r1.dropWhile isWordChar
    if w.isEmpty then none
    else if startsWithL ("\"]".data) r2 then
      match (r2.drop 2).dropWhile isPySpace with
      | '=' :: r4 =>
        match r4.dropWhile isPySpace with
        | '"' :: r5 =>
          match r5.dropWhile (fun c => c ≠ '"') with
          | '"' :: r7 => some (w, r7)
          | _ => none
        | _ => none
      | _ => none
    else none
  else none

/-- Python `re.search(pattern2, text)` as a Boolean. -/
def hasMatchEnviron : List Char → Bool
  | [] => false
  | c :: cs => (tryMatchEnviron (c :: cs)).isSome || hasMatchEnviron cs

/-- Python `re.sub(pattern2, ..., text)`. -/
def subEnvironAux : Nat → List Char → List Char
  | 0, l => l
  | _ + 1, [] => []
  | fuel + 1, c :: cs =>
    match tryMatchEnviron (c :: cs) with
    | some (w, rest) =>
      ("os.environ[\"".data) ++ w ++ ("\"] = None".data) ++
        subEnvironAux fuel rest
    | none => c :: subEnvironAux fuel cs

/-- Python `str.splitlines(keepends=True)` restricted to the newline
terminator (the only line boundary occurring in the notebooks of the
repository): each line keeps its trailing newline, and there is no
empty final line. -/
def splitlinesKE : List Char → List (List Char)
  | [] => []
  | c :: cs =>
    if c = '\n' then ('\n' :: []) :: splitlinesKE cs
    else
      match splitlinesKE cs with
      | [] => (c :: []) :: []
      | l :: ls => (c :: l) :: ls

/-- Lines of a string, each keeping its terminator. -/
def pySplitlinesKE (s : String) : List String :=
  (splitlinesKE s.data).map fun l => (⟨l⟩ : String)

/-- One notebook cell as the rewriter sees it (the repository
notebooks store `source` as an array of strings). -/
structure PCell where
  cellType : String
  source : List String
deriving DecidableEq, Repr

/-- Python `''.join(source_lines)`. -/
def joinAll (l : List String) : String :=
  ⟨(l.map String.data).flatten⟩

/-- The `import_idx` scan of the rewriter (lines 71-74): one past the
last line whose lowercased text contains `import`. -/
def lastImportIdxAux : Nat → Nat → List String → Nat
  | idx, _, [] => idx
  | idx, i, line :: rest =>
    lastImportIdxAux (if pyContains (pyLower line) "import" then i + 1 else idx)
      (i + 1) rest

/-- Python `list.insert(n, x)` for `n` at most the length. -/
def insertAt (l : List String) (n : Nat) (x : String) : List String :=
  l.take n ++ x :: l.drop n

/-- Per-cell body of the rewriter loop (lines 41-97 of
`preprocess_notebook.py`).  The state is the pair of module-level
flags `needs_os_import` and `os_import_added`.  Pattern 2 is applied
to `source_text`, the join of the ORIGINAL cell source, exactly as in
the Python code — even when pattern 1 already rewrote the cell. -/
def processCell (needs0 added0 : Bool) (cell : PCell) : PCell × Bool × Bool :=
  if cell.cellType ≠ "code" then (cell, needs0, added0)
  else
    let sourceText := joinAll cell.source
    let needs :=
      if pyContains sourceText "import os" ||
          pyContains sourceText "from os import" then false
      else needs0
    let step1 :=
      if hasMatchInput sourceText.data then
        let ls := (splitlinesKE (subInputAux sourceText.data.length
          sourceText.data)).map fun l => (⟨l⟩ : String)
        if needs && !added0 then
          let firstLine := ls.headD ""
          if pyContains (pyLower firstLine) "import" then
            (insertAt ls (lastImportIdxAux 0 0 ls) "import os\n", true)
          else
            ("import os\n" :: ls, true)
        else (ls, added0)
      else (cell.source, added0)
    let step2 :=
      if hasMatchEnviron sourceText.data then
        let ls := (splitlinesKE (subEnvironAux sourceText.data.length
          sourceText.data)).map fun l => (⟨l⟩ : String)
        if needs && !step1.2 then
          (if pyContains sourceText "import os" then ls
           else "import os\n" :: ls, true)
        else (ls, step1.2)
      else step1
    (⟨cell.cellType, step2.1⟩, needs, step2.2)

/-- The cell loop of the rewriter, threading the two flags. -/
def preprocessCells : Bool → Bool → List PCell → List PCell
  | _, _, [] => []
  | needs, added, c :: cs =>
    let r := processCell needs added c
    r.1 :: preprocessCells r.2.1 r.2.2 cs

/-- Lines 41-97 of `preprocess_notebook.py`: the in-memory document
transformation (file reading and writing are outside the model). -/
def preprocess_notebook (cells : List PCell) : List PCell :=
  preprocessCells true false cells

/-- Grouping of the message templates by the loop that emits them: the
Rule A loop runs before the Rule B loop inside one cell. -/
def ruleGroup : Rule → Nat
  | Rule.ruleA => 0
  | _ => 1

/-- Strict order in which the validator actually emits diagnostics:
by cell index, then by emitting loop (Rule A before Rule B), then by
element index. -/
def diagLt (a b : Diag) : Prop :=
  a.cell < b.cell ∨ (a.cell = b.cell ∧
    (ruleGroup a.rule < ruleGroup b.rule ∨
      (ruleGroup a.rule = ruleGroup b.rule ∧ a.idx < b.idx)))

/-- A fragment that is a string ending with a newline. -/
def fragEndsWithNl : Frag → Bool
  | Frag.str s => pyEndsWith s "\n"
  | Frag.nonstr => false

/-- Notebook with one code cell holding the fragments
`cmd1 && backslash` and an indented continuation line. -/
def nbC2 : Notebook :=
  ⟨some [⟨"code", Source.fragments
    [Frag.str "cmd1 && \\", Frag.str "  cmd2\n"]⟩]⟩

/-- Notebook with one code cell holding a continuation fragment
followed by a blank fragment. -/
def nbC7 : Notebook :=
  ⟨some [⟨"code", Source.fragments [Frag.str "cmd1 && \\", Frag.str ""]⟩]⟩

/-- Notebook whose single code cell triggers Rule B at element 0 and
Rule A at element 2. -/
def nbC4x : Notebook :=
  ⟨some [⟨"code", Source.fragments
    [Frag.str "x \\", Frag.str "", Frag.str "a", Frag.str "b\n"]⟩]⟩

/-- Joined-string cell: backslash continuation followed by a blank
line. -/
def nbC3a : Notebook := ⟨some [⟨"code", Source.joined "cmd1 && \\\n\n"⟩]⟩

/-- Joined-string cell: backslash continuation followed by an
unindented line starting with the shell keyword `echo`. -/
def nbC3b : Notebook :=
  ⟨some [⟨"code", Source.joined "cmd1 && \\\necho hi\n"⟩]⟩

/-- Rewriter document whose single code cell contains both an
`input()` assignment and an `os.environ` quoted-literal assignment. -/
def nbBoth : List PCell :=
  [⟨"code", ["X = input(\"p\")\n", "os.environ[\"K\"] = \"v\"\n"]⟩]

/-- Rewriter document whose single code cell contains only the
`os.environ` quoted-literal assignment. -/
def nbEnvOnly : List PCell :=
  [⟨"code", ["os.environ[\"K\"] = \"v\"\n"]⟩]

/-- A diagnostic produced by the Rule A body carries the cell index,
the Rule A template and the element index it was called with. -/
theorem ruleACheck_spec {ci i : Nat} {e ne : Frag} {d : Diag}
    (h : ruleACheck ci i e ne = some d) : d = ⟨ci, Rule.ruleA, i⟩ := by
  unfold ruleACheck at h
  repeat' split at h
  any_goals cases h
  all_goals rfl

/-- A diagnostic produced by the Rule B body carries the cell index,
the element index, and one of the two Rule B templates. -/
theorem ruleBCheck_spec {ci i : Nat} {e ne : Frag} {d : Diag}
    (h : ruleBCheck ci i e ne = some d) :
    d.cell = ci ∧ d.idx = i ∧
      (d.rule = Rule.ruleBBlank ∨ d.rule = Rule.ruleBCmd) := by
  unfold ruleBCheck at h
  repeat' split at h
  any_goals cases h
  all_goals exact ⟨rfl, rfl, by simp⟩

/-- A diagnostic produced by the joined-string check carries the cell
index, the line template and the line index it was called with. -/
theorem strLineCheck_spec {ci i : Nat} {a b : String} {d : Diag}
    (h : strLineCheck ci i a b = some d) : d = ⟨ci, Rule.ruleBLine, i⟩ := by
  unfold strLineCheck at h
  repeat' split at h
  any_goals cases h
  all_goals rfl

/-- Shape of a diagnostic of the Rule A loop at index `i`. -/
theorem ruleAAt_spec {ci : Nat} {l : List Frag} {i : Nat} {d : Diag}
    (h : ruleAAt ci l i = some d) : d = ⟨ci, Rule.ruleA, i⟩ := by
  unfold ruleAAt at h
  cases h1 : l[i]? with
  | none => rw [h1] at h; cases h
  | some e =>
    cases h2 : l[i + 1]? with
    | none => rw [h1, h2] at h; cases h
    | some ne => rw [h1, h2] at h; exact ruleACheck_spec h

/-- Shape of a diagnostic of the Rule B loop at index `i`. -/
theorem ruleBAt_spec {ci : Nat} {l : List Frag} {i : Nat} {d : Diag}
    (h : ruleBAt ci l i = some d) :
    d.cell = ci ∧ d.idx = i ∧
      (d.rule = Rule.ruleBBlank ∨ d.rule = Rule.ruleBCmd) := by
  unfold ruleBAt at h
  cases h1 : l[i]? with
  | none => rw [h1] at h; cases h
  | some e =>
    cases h2 : l[i + 1]? with
    | none => rw [h1, h2] at h; cases h
    | some ne => rw [h1, h2] at h; exact ruleBCheck_spec h

/-- Shape of a diagnostic of the joined-string loop at line `i`. -/
theorem strLineAt_spec {ci : Nat} {lines : List String} {i : Nat} {d : Diag}
    (h : strLineAt ci lines i = some d) : d = ⟨ci, Rule.ruleBLine, i⟩ := by
  unfold strLineAt at h
  cases h1 : lines[i]? with
  | none => rw [h1] at h; cases h
  | some a =>
    cases h2 : lines[i + 1]? with
    | none => rw [h1, h2] at h; cases h
    | some b => rw [h1, h2] at h; exact strLineCheck_spec h

/-- Every diagnostic of the Rule A loop names the loop cell and the
Rule A template. -/
theorem mem_ruleADiags {ci : Nat} {l : List Frag} {d : Diag}
    (h : d ∈ ruleADiags ci l) :
    d.cell = ci ∧ d.rule = Rule.ruleA := by
  obtain ⟨i, _, hi⟩ := List.mem_filterMap.mp h
  rw [ruleAAt_spec hi]
  exact ⟨rfl, rfl⟩

/-- Every diagnostic of the Rule B loop names the loop cell and one of
the two Rule B templates. -/
theorem mem_ruleBDiags {ci : Nat} {l : List Frag} {d : Diag}
    (h : d ∈ ruleBDiags ci l) :
    d.cell = ci ∧ (d.rule = Rule.ruleBBlank ∨ d.rule = Rule.ruleBCmd) := by
  obtain ⟨i, _, hi⟩ := List.mem_filterMap.mp h
  obtain ⟨h1, _, h3⟩ := ruleBAt_spec hi
  exact ⟨h1, h3⟩

/-- Every diagnostic of the joined-string branch names the loop cell
and the line template. -/
theorem mem_strDiags {ci : Nat} {s : String} {d : Diag}
    (h : d ∈ strDiags ci s) :
    d.cell = ci ∧ d.rule = Rule.ruleBLine := by
  obtain ⟨i, _, hi⟩ := List.mem_filterMap.mp h
  rw [strLineAt_spec hi]
  exact ⟨rfl, rfl⟩

/-- The Rule A loop emits its diagnostics in strictly increasing
element order (all in group 0). -/
theorem ruleADiags_pairwise (ci : Nat) (l : List Frag) :
    (ruleADiags ci l).Pairwise diagLt := by
  unfold ruleADiags
  refine List.pairwise_filterMap.mpr ?_
  refine (List.pairwise_lt_range _).imp ?_
  intro i j hij a ha b hb
  rw [Option.mem_def] at ha hb
  rw [ruleAAt_spec ha, ruleAAt_spec hb]
  exact Or.inr ⟨rfl, Or.inr ⟨rfl, hij⟩⟩

/-- The Rule B loop emits its diagnostics in strictly increasing
element order (all in group 1). -/
theorem ruleBDiags_pairwise (ci : Nat) (l : List Frag) :
    (ruleBDiags ci l).Pairwise diagLt := by
  unfold ruleBDiags
  refine List.pairwise_filterMap.mpr ?_
  refine (List.pairwise_lt_range _).imp ?_
  intro i j hij a ha b hb
  rw [Option.mem_def] at ha hb
  obtain ⟨hac, hai, har⟩ := ruleBAt_spec ha
  obtain ⟨hbc, hbi, hbr⟩ := ruleBAt_spec hb
  refine Or.inr ⟨by rw [hac, hbc], Or.inr ⟨?_, by rw [hai, hbi]; exact hij⟩⟩
  rcases har with h1 | h1 <;> rcases hbr with h2 | h2 <;> rw [h1, h2] <;> rfl

/-- The joined-string loop emits its diagnostics in strictly
increasing line order (all in group 1). -/
theorem strDiags_pairwise (ci : Nat) (s : String) :
    (strDiags ci s).Pairwise diagLt := by
  unfold strDiags
  refine List.pairwise_filterMap.mpr ?_
  refine (List.pairwise_lt_range _).imp ?_
  intro i j hij a ha b hb
  rw [Option.mem_def] at ha hb
  rw [strLineAt_spec ha, strLineAt_spec hb]
  exact Or.inr ⟨rfl, Or.inr ⟨rfl, hij⟩⟩

/-- Within one cell, the validator emits all Rule A diagnostics (in
element order) before all Rule B diagnostics (in element order). -/
theorem validateCell_pairwise (ci : Nat) (c : Cell) :
    (validateCell ci c).Pairwise diagLt := by
  unfold validateCell
  split
  · exact List.Pairwise.nil
  · split
    · exact List.Pairwise.nil
    · split
      · refine List.pairwise_append.mpr
          ⟨ruleADiags_pairwise ci _, ruleBDiags_pairwise ci _, ?_⟩
        intro a ha b hb
        obtain ⟨hac, har⟩ := mem_ruleADiags ha
        obtain ⟨hbc, hbr⟩ := mem_ruleBDiags hb
        refine Or.inr ⟨by rw [hac, hbc], Or.inl ?_⟩
        rw [har]
        rcases hbr with h1 | h1 <;> rw [h1] <;> exact Nat.zero_lt_one
      · exact strDiags_pairwise ci _
      · exact List.Pairwise.nil

/-- Every diagnostic emitted for one cell names that cell. -/
theorem validateCell_cell {ci : Nat} {c : Cell} {d : Diag}
    (h : d ∈ validateCell ci c) : d.cell = ci := by
  unfold validateCell at h
  split at h
  · cases h
  · split at h
    · cases h
    · split at h
      · rcases List.mem_append.mp h with h | h
        · exact (mem_ruleADiags h).1
        · exact (mem_ruleBDiags h).1
      · exact (mem_strDiags h).1
      · cases h

/-- Every diagnostic of the cell loop started at index `ci` names a
cell index at least `ci`. -/
theorem validateCells_cell_ge : ∀ (ci : Nat) (cs : List Cell) (d : Diag),
    d ∈ validateCells ci cs → ci ≤ d.cell
  | ci, [], d, h => by cases h
  | ci, c :: cs, d, h => by
    rcases List.mem_append.mp h with h | h
    · exact (validateCell_cell h).ge
    · exact Nat.le_of_succ_le (validateCells_cell_ge (ci + 1) cs d h)

/-- The diagnostics of the cell loop are strictly ordered by cell
index, then emitting loop, then element index. -/
theorem validateCells_pairwise : ∀ (ci : Nat) (cs : List Cell),
    (validateCells ci cs).Pairwise diagLt
  | _, [] => List.Pairwise.nil
  | ci, c :: cs => by
    refine List.pairwise_append.mpr
      ⟨validateCell_pairwise ci c, validateCells_pairwise (ci + 1) cs, ?_⟩
    intro a ha b hb
    refine Or.inl (Nat.lt_of_lt_of_le ?_ (validateCells_cell_ge (ci + 1) cs b hb))
    rw [validateCell_cell ha]
    exact Nat.lt_succ_self ci

/-- Lookup into `dropLast` agrees with lookup into the list on every
index except the last. -/
theorem getElem?_dropLast_eq {α : Type} : ∀ (l : List α) (i : Nat),
    i + 1 < l.length → l.dropLast[i]? = l[i]?
  | [], _, h => by simp at h
  | [a], _, h => by simp at h
  | a :: b :: l, 0, _ => by rw [List.dropLast_cons₂]; simp
  | a :: b :: l, i + 1, h => by
    have ih := getElem?_dropLast_eq (b :: l) i
      (by simp only [List.length_cons] at h ⊢; omega)
    rw [List.dropLast_cons₂, List.getElem?_cons_succ, List.getElem?_cons_succ]
    exact ih

/-- A document whose code cells all have a falsy `source` makes every
loop iteration hit a `continue`. -/
theorem validateCells_falsy : ∀ (ci : Nat) (cs : List Cell),
    (∀ c ∈ cs, c.cellType = "code" → sourceTruthy c.source = false) →
    validateCells ci cs = []
  | _, [], _ => rfl
  | ci, c :: cs, h => by
    have h1 : validateCell ci c = [] := by
      unfold validateCell
      by_cases hc : c.cellType = "code"
      · rw [if_neg (by simp [hc]), if_pos
          (by rw [h c (List.mem_cons_self c cs) hc]; rfl)]
      · rw [if_pos hc]
    show validateCell ci c ++ validateCells (ci + 1) cs = []
    rw [h1, validateCells_falsy (ci + 1) cs
      (fun c' hc' => h c' (List.mem_cons_of_mem c hc'))]
    rfl

/-- C4 (counterexample): the claim says that, within one cell, the
diagnostic naming the smaller fragment index appears first regardless
of the rule that produced it.  On a cell whose fragments are
`x backslash`, blank, `a`, `b` the validator emits the Rule A
diagnostic for element 2 before the Rule B diagnostic for element 0,
so its diagnostic list is not sorted by fragment index within the
cell. -/
theorem c4_counterexample :
    ¬ ((validate_notebook_source_format nbC4x).2.Pairwise fun a b =>
        a.cell < b.cell ∨ (a.cell = b.cell ∧ a.idx ≤ b.idx)) := by
  intro h
  have he : (validate_notebook_source_format nbC4x).2 =
      [⟨0, Rule.ruleA, 2⟩, ⟨0, Rule.ruleBBlank, 0⟩] := by decide
  rw [he] at h
  have h2 := (List.pairwise_cons.mp h).1 ⟨0, Rule.ruleBBlank, 0⟩ (by simp)
  rcases h2 with h2 | ⟨_, h3⟩
  · exact absurd h2 (by decide)
  · exact absurd h3 (by decide)

/-- C4 (amended): for every document, the diagnostics are strictly
ordered by cell index first; within one cell all Rule A diagnostics
come before all Rule B diagnostics, and inside each of the two groups
the element (fragment or line) index is strictly increasing. -/
theorem c4_amended (nb : Notebook) :
    ((validate_notebook_source_format nb).2).Pairwise diagLt := by
  cases nb with
  | mk cells =>
    cases cells with
    | none => exact List.Pairwise.nil
    | some cs =>
      by_cases hcs : cs.isEmpty = true
      · have h : validate_notebook_source_format ⟨some cs⟩ = (true, []) := by
          unfold validate_notebook_source_format
          dsimp only
          rw [if_pos hcs]
        rw [h]
        exact List.Pairwise.nil
      · have h : (validate_notebook_source_format ⟨some cs⟩).2 =
            validateCells 0 cs := by
          unfold validate_notebook_source_format
          dsimp only
          rw [if_neg hcs]
        rw [h]
        exact validateCells_pairwise 0 cs

/-- C2 (counterexample): on the fragments `cmd1 && backslash` and an
indented continuation line, the validator does NOT report zero
diagnostics. -/
theorem c2_counterexample :
    (validate_notebook_source_format nbC2).2 ≠ [] := by decide

/-- C2 (amended): on those fragments the validator reports exactly one
diagnostic, the Rule A missing-newline diagnostic for element 0 of
cell 0 (the catch-all fires because element 0 lacks a trailing newline
and both elements are non-blank); Rule B stays silent because the
continuation line is indented. -/
theorem c2_amended :
    validate_notebook_source_format nbC2 =
      (false, [⟨0, Rule.ruleA, 0⟩]) := by decide

/-- C7: on the fragments `cmd1 && backslash` and a blank fragment, the
validator reports exactly one diagnostic, the Rule B
continuation-followed-by-blank diagnostic for element 0 of cell 0. -/
theorem c7_theorem :
    validate_notebook_source_format nbC7 =
      (false, [⟨0, Rule.ruleBBlank, 0⟩]) := by decide

/-- C3 (counterexample): the claim says that in a joined-string cell a
backslash-terminated line followed by an unindented line starting with
a shell keyword yields a diagnostic.  On such a cell the validator
reports no diagnostic at all: the joined-string branch contains only
the blank-line sub-case. -/
theorem c3_counterexample :
    (validate_notebook_source_format nbC3b).2 = [] := by decide

/-- C3 (amended): for a cell whose `source` is a single joined string,
every diagnostic the validator can emit is of the
backslash-then-blank-line kind (so Rule A and the new-command keyword
sub-case are never applied to such cells); the blank-line sub-case
does fire (one diagnostic for line 1 of the first document), while a
backslash continuation followed by an unindented `echo` line yields no
diagnostic. -/
theorem c3_amended :
    (∀ (ci : Nat) (s : String),
      ((validateCell ci ⟨"code", Source.joined s⟩).all
        fun d => d.rule == Rule.ruleBLine) = true) ∧
    validate_notebook_source_format nbC3a =
      (false, [⟨0, Rule.ruleBLine, 0⟩]) ∧
    (validate_notebook_source_format nbC3b).2 = [] := by
  refine ⟨?_, by decide, by decide⟩
  intro ci s
  rw [List.all_eq_true]
  intro d hd
  have hr : d.rule = Rule.ruleBLine := by
    unfold validateCell at hd
    rw [if_neg (by simp)] at hd
    by_cases hs : s = ""
    · rw [if_pos (by rw [hs]; rfl)] at hd
      cases hd
    · rw [if_neg (by simp [sourceTruthy, hs])] at hd
      exact (mem_strDiags hd).2
  rw [hr]
  rfl

/-- C6: if every element of a fragment array except possibly the last
is a string ending with a newline, the validator emits no Rule A
diagnostic for that cell. -/
theorem c6_theorem (ci : Nat) (l : List Frag)
    (h : l.dropLast.all fragEndsWithNl = true) :
    ((validateCell ci ⟨"code", Source.fragments l⟩).filter
      fun d => d.rule == Rule.ruleA) = [] := by
  cases l with
  | nil => rfl
  | cons a t =>
    have hv : validateCell ci ⟨"code", Source.fragments (a :: t)⟩ =
        ruleADiags ci (a :: t) ++ ruleBDiags ci (a :: t) := by
      unfold validateCell
      rw [if_neg (by simp), if_neg (by simp [sourceTruthy])]
    have hA : ruleADiags ci (a :: t) = [] := by
      refine List.filterMap_eq_nil_iff.mpr ?_
      intro i hi
      rw [List.mem_range] at hi
      have hi1 : i + 1 < (a :: t).length := by
        simp only [List.length_cons] at hi ⊢; omega
      unfold ruleAAt
      cases h1 : (a :: t)[i]? with
      | none => rfl
      | some e =>
        cases h2 : (a :: t)[i + 1]? with
        | none => rfl
        | some ne =>
          have hmem : e ∈ (a :: t).dropLast :=
            List.getElem?_mem (by rw [getElem?_dropLast_eq _ i hi1]; exact h1)
          have he := List.all_eq_true.mp h e hmem
          cases e with
          | nonstr => simp [fragEndsWithNl] at he
          | str s =>
            simp only [fragEndsWithNl] at he
            cases ne <;> simp [ruleACheck, he]
    rw [hv, List.filter_append, hA, List.filter_nil, List.nil_append]
    refine List.filter_eq_nil_iff.mpr ?_
    intro d hd
    rcases (mem_ruleBDiags hd).2 with h1 | h1 <;> simp [h1]

/-- C6 (witness): concrete instance with fragments `a` plus newline
and `b`. -/
theorem c6_witness :
    ((validateCell 0 ⟨"code",
      Source.fragments [Frag.str "a\n", Frag.str "b"]⟩).filter
      fun d => d.rule == Rule.ruleA) = [] :=
  c6_theorem 0 [Frag.str "a\n", Frag.str "b"] (by decide)

/-- C9: an adjacent fragment pair in which either member is not a
string is skipped by the Rule A body and by the Rule B body; neither
produces a diagnostic (and both are total functions, so no error is
possible). -/
theorem c9_theorem (ci i : Nat) (e ne : Frag)
    (h : e = Frag.nonstr ∨ ne = Frag.nonstr) :
    ruleACheck ci i e ne = none ∧ ruleBCheck ci i e ne = none := by
  rcases h with h | h
  · subst h
    exact ⟨rfl, by cases ne <;> rfl⟩
  · subst h
    cases e <;> exact ⟨rfl, rfl⟩

/-- C9 (witness): concrete non-string element before a string
element. -/
theorem c9_witness :
    ruleACheck 0 0 Frag.nonstr (Frag.str "x") = none ∧
    ruleBCheck 0 0 Frag.nonstr (Frag.str "x") = none :=
  c9_theorem 0 0 Frag.nonstr (Frag.str "x") (Or.inl rfl)

/-- C10: a document with no `cells` key, an empty `cells` list, or
only cells whose `source` is falsy (empty array, empty string or
absent) is reported valid with an empty diagnostic list. -/
theorem c10_theorem :
    validate_notebook_source_format ⟨none⟩ = (true, []) ∧
    validate_notebook_source_format ⟨some []⟩ = (true, []) ∧
    ∀ cs : List Cell,
      (∀ c ∈ cs, c.cellType = "code" → sourceTruthy c.source = false) →
      validate_notebook_source_format ⟨some cs⟩ = (true, []) := by
  refine ⟨rfl, rfl, ?_⟩
  intro cs h
  cases cs with
  | nil => rfl
  | cons c cs' =>
    have hnil : validateCells 0 (c :: cs') = [] := validateCells_falsy 0 _ h
    have h2 : (c :: cs').isEmpty = false := rfl
    unfold validate_notebook_source_format
    dsimp only
    rw [if_neg (by rw [h2]; exact Bool.false_ne_true), hnil]
    rfl

/-- C10 (witness): a document whose code cells have absent, empty
array and empty string sources, plus one non-code cell. -/
theorem c10_witness :
    validate_notebook_source_format ⟨some [⟨"code", Source.absent⟩,
      ⟨"markdown", Source.joined "x"⟩, ⟨"code", Source.fragments []⟩,
      ⟨"code", Source.joined ""⟩]⟩ = (true, []) :=
  c10_theorem.2.2 _ (by decide)

/-- C1 (code bug): on a cell containing both an `input()` assignment
and an `os.environ` quoted-literal assignment, the rewriter output
still contains `input(` and does not contain `X = None`: the pattern 2
substitution is applied to the original cell text and overwrites the
pattern 1 rewrite. -/
theorem c1_theorem :
    preprocess_notebook nbBoth =
      [⟨"code", ["X = input(\"p\")\n", "os.environ[\"K\"] = None\n"]⟩] ∧
    pyContains (joinAll ((preprocess_notebook nbBoth).headD
      ⟨"", []⟩).source) "input(" = true ∧
    pyContains (joinAll ((preprocess_notebook nbBoth).headD
      ⟨"", []⟩).source) "X = None" = false := by decide

/-- C5 (code bug): on the same two-pattern cell no `import os` line
survives in the output (the pattern 2 rewrite of the original text
also discards the import inserted by the pattern 1 branch), although
a replacement occurred and no cell imported the module; with only the
`os.environ` pattern present the import is inserted as the new first
line. -/
theorem c5_theorem :
    pyContains (joinAll ((preprocess_notebook nbBoth).headD
      ⟨"", []⟩).source) "import os" = false ∧
    preprocess_notebook nbEnvOnly =
      [⟨"code", ["import os\n", "os.environ[\"K\"] = None\n"]⟩] := by decide

/-- C8 (code bug): the rewriter is not idempotent.  Applied to its own
output for the two-pattern document, it performs a further `input()`
substitution and a further import insertion, so the second output
differs from the first. -/
theorem c8_theorem :
    preprocess_notebook (preprocess_notebook nbBoth) ≠
      preprocess_notebook nbBoth := by decide
